import Mathlib

/-!
# Retention cleanup controllers of the Shipwright build operator

A shallow embedding of

* `pkg/reconciler/buildrunttlcleanup/buildrun_ttl_cleanup.go` (`reconcileTTL`, `Reconcile`),
* `pkg/reconciler/buildrunttlcleanup/controller.go` (`predBuildRun`),
* `pkg/reconciler/buildlimitcleanup/controller.go` (`pred`, `predBuildRun`, the map function),

followed by the properties established for them.

Conventions of the embedding:

* a Go pointer that may be `nil` is an `Option`; dereferencing `nil` ends the run in
  `Run.nilDereference`, also in a predicate or in the map function;
* instants and durations are integers counting nanoseconds; a difference of two instants
  (`Time.Sub`, `time.Until`) is held within the 64-bit range of `time.Duration`, as in Go;
* the Kubernetes client is an explicit state (`Client`) threaded through the code; it also
  records every delete request it receives;
* the two calls of `time.Now()` in `reconcileTTL` are the two readings of a `Clock`.
-/

/-! ## Time (`time`, `metav1`) -/

/-- Go `time.Duration` (also the payload of `metav1.Duration`): signed nanoseconds. -/
abbrev Duration := Int

/-- An instant, `time.Time` or `metav1.Time`, as nanoseconds since the epoch. -/
structure Time where
  unixNano : Int
deriving DecidableEq, Repr

/-- Go `t.Add(d)`. -/
def Time.Add (t : Time) (d : Duration) : Time := ⟨t.unixNano + d⟩

/-- Go `t.Before(u)`: `t` is strictly earlier than `u`. -/
def Time.Before (t u : Time) : Bool := decide (t.unixNano < u.unixNano)

/-- Go `minDuration`, the least `time.Duration`: `-1 << 63` nanoseconds. -/
def minDuration : Duration := -9223372036854775808

/-- Go `maxDuration`, the largest `time.Duration`: `1<<63 - 1` nanoseconds. -/
def maxDuration : Duration := 9223372036854775807

/-- Go `t.Sub(u)`: the difference `t - u` when it is a `time.Duration`; otherwise `minDuration`
when `t` is before `u`, and `maxDuration` when it is not. -/
def Time.Sub (t u : Time) : Duration :=
  let d := t.unixNano - u.unixNano
  if minDuration ≤ d ∧ d ≤ maxDuration then d
  else if t.Before u then minDuration
  else maxDuration

/-- The readings of the wall clock taken during one call of `reconcileTTL`: `atBefore` is the
`time.Now()` of the expiry test, `atUntil` the `time.Now()` inside `time.Until`. -/
structure Clock where
  atBefore : Time
  atUntil : Time
deriving DecidableEq, Repr

/-- A clock that shows the same instant at both readings. -/
def Clock.fixed (now : Time) : Clock := ⟨now, now⟩

/-- Go `time.Until(t)`, which is `t.Sub(time.Now())`. -/
def Clock.Until (clock : Clock) (t : Time) : Duration := t.Sub clock.atUntil

/-! ## API types (`pkg/apis/build/v1alpha1`, `corev1`, `types`, `reconcile`) -/

/-- Kubernetes `corev1.ConditionStatus`, a string type with three named values. -/
inductive ConditionStatus where
  | True
  | False
  | Unknown
  | other (value : String)
deriving DecidableEq, Repr

/-- The `Type` of a condition; `Succeeded` is the only one the controllers ask for. -/
inductive ConditionType where
  | Succeeded
  | other (name : String)
deriving DecidableEq, Repr

/-- Modelled from the spec: the `Condition` record of `pkg/apis/build/v1alpha1`, which is not
among the sources; only its type (Go field `Type`) and its status are read. -/
structure Condition where
  CondType : ConditionType
  Status : ConditionStatus
deriving DecidableEq, Repr

/-- Modelled from the spec: `BuildRunRetention`, the own retention policy of a BuildRun, with an
optional TTL per outcome (`ttlAfterFailed`, `ttlAfterSucceeded`). -/
structure BuildRunRetention where
  TTLAfterFailed : Option Duration
  TTLAfterSucceeded : Option Duration
deriving DecidableEq, Repr

/-- Modelled from the spec: `BuildRetention`, the retention policy of a Build, with the optional
integer limits `failedLimit`, `succeededLimit` and an optional TTL per outcome. -/
structure BuildRetention where
  FailedLimit : Option Int
  SucceededLimit : Option Int
  TTLAfterFailed : Option Duration
  TTLAfterSucceeded : Option Duration
deriving DecidableEq, Repr

/-- Modelled from the spec: the part of `BuildSpec` that the controllers read. -/
structure BuildSpec where
  Retention : Option BuildRetention
deriving DecidableEq, Repr

/-- Modelled from the spec: a Build (the primary resource). -/
structure Build where
  Namespace : String
  Name : String
  Spec : BuildSpec
deriving DecidableEq, Repr

/-- Modelled from the spec: the reference of a BuildRun to its Build (`ownerRef.name`). -/
structure BuildRef where
  Name : String
deriving DecidableEq, Repr

/-- Modelled from the spec: the part of `BuildRunSpec` that the controllers read. The reference
to the Build is a pointer: a BuildRun without an owner reference has none. -/
structure BuildRunSpec where
  BuildRef : Option BuildRef
  Retention : Option BuildRunRetention
deriving DecidableEq, Repr

/-- Modelled from the spec: the part of `BuildRunStatus` that the controllers read: the recorded
conditions, the completion time (a pointer) and the snapshot of the Build spec (a pointer). -/
structure BuildRunStatus where
  Conditions : List Condition
  CompletionTime : Option Time
  BuildSpec : Option BuildSpec
deriving DecidableEq, Repr

/-- Modelled from the spec: a BuildRun (the secondary resource). -/
structure BuildRun where
  Namespace : String
  Name : String
  Spec : BuildRunSpec
  Status : BuildRunStatus
deriving DecidableEq, Repr

/-- Modelled from the spec: `GetCondition` of `BuildRunStatus` is declared outside the sources; it
hands out the recorded condition of the requested type, or `nil` when none is recorded. -/
def BuildRunStatus.GetCondition (brs : BuildRunStatus) (t : ConditionType) : Option Condition :=
  brs.Conditions.find? (fun c => decide (c.CondType = t))

/-- Kubernetes `types.NamespacedName`. -/
structure NamespacedName where
  Namespace : String
  Name : String
deriving DecidableEq, Repr

/-- Controller-runtime `reconcile.Request`. -/
structure Request where
  NamespacedName : NamespacedName
deriving DecidableEq, Repr

/-- Controller-runtime `reconcile.Result`; the zero value `{}` carries no requeue directive. -/
structure Result where
  Requeue : Bool := false
  RequeueAfter : Duration := 0
deriving DecidableEq, Repr

/-- Controller-runtime `event.CreateEvent` for a BuildRun or a Build. -/
structure CreateEvent (α : Type) where
  Object : α

/-- Controller-runtime `event.UpdateEvent` for a BuildRun or a Build. -/
structure UpdateEvent (α : Type) where
  ObjectOld : α
  ObjectNew : α

/-- Controller-runtime `event.DeleteEvent` for a BuildRun or a Build. -/
structure DeleteEvent (α : Type) where
  Object : α

/-! ## The store behind `client.Client` -/

/-- An error value handed out by the store; `notFound` is what `apierrors.IsNotFound` accepts. -/
inductive APIError where
  | notFound
  | other (reason : String)
deriving DecidableEq, Repr

/-- Kubernetes `apierrors.IsNotFound`. -/
def IsNotFound (err : APIError) : Bool :=
  match err with
  | .notFound => true
  | .other _ => false

/-- The outcome of running Go code that may dereference `nil`. -/
inductive Run (α : Type) where
  | returned (value : α)
  | nilDereference
deriving DecidableEq, Repr

/-- Modelled from the spec: the store of section 6 (`get`, `delete`) as one reconciliation sees
it. `objects` are the BuildRuns it holds; `getFailure` and `deleteFailure` are what a failing
store answers instead of serving the call (a concurrent removal shows as
`deleteFailure = some .notFound`); `deleteCalls` lists the delete requests received so far. -/
structure Client where
  objects : List BuildRun
  getFailure : Option APIError
  deleteFailure : Option APIError
  deleteCalls : List BuildRun
deriving DecidableEq, Repr

/-- The identity of a BuildRun. -/
def BuildRun.key (br : BuildRun) : NamespacedName := ⟨br.Namespace, br.Name⟩

/-- The call `client.Get(ctx, key, br)`: the stored BuildRun of that identity, or an error. -/
def Client.Get (c : Client) (key : NamespacedName) : Except APIError BuildRun :=
  match c.getFailure with
  | some err => .error err
  | none =>
    match c.objects.find? (fun o => decide (o.key = key)) with
    | some br => .ok br
    | none => .error .notFound

/-- The call `client.Delete(ctx, obj, opts)`: the request is recorded; unless the store fails, the
BuildRun of that identity is removed, and `notFound` is answered when there is none. -/
def Client.Delete (c : Client) (obj : BuildRun) : Option APIError × Client :=
  let c1 := { c with deleteCalls := c.deleteCalls ++ [obj] }
  match c.deleteFailure with
  | some err => (some err, c1)
  | none =>
    if c.objects.any (fun o => decide (o.key = obj.key)) then
      (none, { c1 with objects := c.objects.filter (fun o => !decide (o.key = obj.key)) })
    else
      (some .notFound, c1)

/-! ## `pkg/reconciler/buildrunttlcleanup` -/

namespace buildrunttlcleanup

/-- The function `reconcileTTL`: deletes the BuildRun when its TTL is over, else hands back the
time that is left. The result is the pair `(timeLeft, err)` of the Go function. -/
def reconcileTTL (clock : Clock) (ttlDuration : Option Duration) (br : BuildRun) (c : Client) :
    Run (Option Duration × Option APIError) × Client :=
  match ttlDuration with
  | none => (.returned (none, none), c)
  | some ttl =>
    match br.Status.CompletionTime with
    | none => (.nilDereference, c)
    | some completionTime =>
      if (completionTime.Add ttl).Before clock.atBefore then
        match c.Delete br with
        | (some err, c1) =>
          if !IsNotFound err then (.returned (none, some err), c1)
          else (.returned (none, none), c1)
        | (none, c1) => (.returned (none, none), c1)
      else
        let timeLeft := clock.Until (completionTime.Add ttl)
        (.returned (some timeLeft, none), c)

/-- Lines 82 to 96 of `Reconcile`: the pair `(TTLFailed, TTLSucceeded)` that is applied.
`snapshot` is `br.Status.BuildSpec.Retention` when both pointers on the way are set. -/
def Reconcile.TTLs (br : BuildRun) : Option Duration × Option Duration :=
  let snapshot := br.Status.BuildSpec.bind (fun bs => bs.Retention)
  match br.Spec.Retention, snapshot with
  | none, some inherited => (inherited.TTLAfterFailed, inherited.TTLAfterSucceeded)
  | some own, _ =>
    let TTLFailed :=
      match own.TTLAfterFailed, snapshot with
      | none, some inherited => inherited.TTLAfterFailed
      | ttl, _ => ttl
    let TTLSucceeded :=
      match own.TTLAfterSucceeded, snapshot with
      | none, some inherited => inherited.TTLAfterSucceeded
      | ttl, _ => ttl
    (TTLFailed, TTLSucceeded)
  | none, none => (none, none)

/-- The tail shared by both arms of the `switch` in `Reconcile`: what is returned after
`reconcileTTL`. -/
def Reconcile.afterTTL (r : Run (Option Duration × Option APIError) × Client) :
    Run (Result × Option APIError) × Client :=
  match r with
  | (.nilDereference, c1) => (.nilDereference, c1)
  | (.returned (_, some err), c1) => (.returned ({}, some err), c1)
  | (.returned (some timeLeft, none), c1) =>
    (.returned ({ Requeue := true, RequeueAfter := timeLeft }, none), c1)
  | (.returned (none, none), c1) => (.returned ({}, none), c1)

/-- The method `Reconcile`: the pair `(reconcile.Result, error)` it returns and the client
after the run. -/
def Reconcile (clock : Clock) (request : Request) (c : Client) :
    Run (Result × Option APIError) × Client :=
  match c.Get ⟨request.NamespacedName.Namespace, request.NamespacedName.Name⟩ with
  | .error err =>
    if IsNotFound err then (.returned ({}, none), c)
    else (.returned ({}, some err), c)
  | .ok br =>
    let TTLFailed := (Reconcile.TTLs br).1
    let TTLSucceeded := (Reconcile.TTLs br).2
    match br.Status.GetCondition .Succeeded with
    | none => (.nilDereference, c)
    | some condition =>
      match condition.Status with
      | .True => Reconcile.afterTTL (reconcileTTL clock TTLSucceeded br c)
      | .False => Reconcile.afterTTL (reconcileTTL clock TTLFailed br c)
      | _ => (.returned ({}, none), c)

/-- The innermost test of `CreateFunc` and of `UpdateFunc`, written out twice in the source: the
BuildRun sets a TTL in its own retention policy, or else in the retention policy of
`Status.BuildSpec`. -/
def predBuildRun.hasTTL (o : BuildRun) : Bool :=
  if (match o.Spec.Retention with
      | some own => own.TTLAfterFailed.isSome || own.TTLAfterSucceeded.isSome
      | none => false) then true
  else if (match o.Status.BuildSpec.bind (fun bs => bs.Retention) with
      | some r => r.TTLAfterFailed.isSome || r.TTLAfterSucceeded.isSome
      | none => false) then true
  else false

/-- The hook `predBuildRun.CreateFunc` of the TTL cleanup controller. -/
def predBuildRun.CreateFunc (e : CreateEvent BuildRun) : Bool :=
  let o := e.Object
  match o.Status.GetCondition .Succeeded with
  | some condition =>
    if condition.Status = .False || condition.Status = .True then predBuildRun.hasTTL o
    else false
  | none => false

/-- The hook `predBuildRun.UpdateFunc` of the TTL cleanup controller. -/
def predBuildRun.UpdateFunc (e : UpdateEvent BuildRun) : Bool :=
  let n := e.ObjectNew
  let o := e.ObjectOld
  match o.Status.GetCondition .Succeeded, n.Status.GetCondition .Succeeded with
  | some oldCondition, some newCondition =>
    if oldCondition.Status = .Unknown &&
        (newCondition.Status = .False || newCondition.Status = .True) then
      predBuildRun.hasTTL n
    else false
  | _, _ => false

/-- The hook `predBuildRun.DeleteFunc` of the TTL cleanup controller. -/
def predBuildRun.DeleteFunc (_e : DeleteEvent BuildRun) : Bool := false

end buildrunttlcleanup

/-! ## `pkg/reconciler/buildlimitcleanup` -/

namespace buildlimitcleanup

/-- The hook `pred.CreateFunc` of the build limit cleanup controller. -/
def pred.CreateFunc (e : CreateEvent Build) : Bool :=
  let o := e.Object
  match o.Spec.Retention with
  | some r => r.FailedLimit.isSome || r.SucceededLimit.isSome
  | none => false

/-- The hook `pred.UpdateFunc` of the build limit cleanup controller; the conversions `int(...)`
of the limits are taken to keep the value. -/
def pred.UpdateFunc (e : UpdateEvent Build) : Bool :=
  let n := e.ObjectNew
  let o := e.ObjectOld
  match o.Spec.Retention, n.Spec.Retention with
  | none, some nr =>
    if nr.FailedLimit.isSome || nr.SucceededLimit.isSome then true else false
  | some old, some nr =>
    if nr.FailedLimit.isSome && old.FailedLimit.isNone then true
    else if nr.SucceededLimit.isSome && old.SucceededLimit.isNone then true
    else if (match nr.FailedLimit, old.FailedLimit with
        | some nl, some ol => decide (nl < ol)
        | _, _ => false) then true
    else if (match nr.SucceededLimit, old.SucceededLimit with
        | some nl, some ol => decide (nl < ol)
        | _, _ => false) then true
    else false
  | _, none => false

/-- The hook `pred.DeleteFunc` of the build limit cleanup controller. -/
def pred.DeleteFunc (_e : DeleteEvent Build) : Bool := false

/-- The hook `predBuildRun.CreateFunc` of the build limit cleanup controller. -/
def predBuildRun.CreateFunc (_e : CreateEvent BuildRun) : Bool := false

/-- The hook `predBuildRun.UpdateFunc` of the build limit cleanup controller. The first test
reads `n.Spec.BuildRef.Name` through the pointer `n.Spec.BuildRef` without a `nil` test. -/
def predBuildRun.UpdateFunc (e : UpdateEvent BuildRun) : Run Bool :=
  let n := e.ObjectNew
  let o := e.ObjectOld
  match n.Spec.BuildRef with
  | none => .nilDereference
  | some buildRef =>
    if buildRef.Name = "" then .returned false
    else
      match o.Status.GetCondition .Succeeded, n.Status.GetCondition .Succeeded with
      | some oldCondition, some newCondition =>
        if oldCondition.Status = .Unknown &&
            (newCondition.Status = .False || newCondition.Status = .True) then .returned true
        else .returned false
      | _, _ => .returned false

/-- The hook `predBuildRun.DeleteFunc` of the build limit cleanup controller. -/
def predBuildRun.DeleteFunc (_e : DeleteEvent BuildRun) : Bool := false

/-- The map function of the BuildRun watch in `add`: the requests a BuildRun is turned into. It
reads `buildRun.Spec.BuildRef.Name` through the pointer without a `nil` test. -/
def add.mapFunc (buildRun : BuildRun) : Run (List Request) :=
  match buildRun.Spec.BuildRef with
  | none => .nilDereference
  | some buildRef =>
    .returned
      [{ NamespacedName := { Name := buildRef.Name, Namespace := buildRun.Namespace } }]

end buildlimitcleanup

/-! ## Sample data -/

namespace Sample

/-- One hour, in nanoseconds. -/
def hour : Duration := 3600000000000

/-- One minute, in nanoseconds. -/
def minute : Duration := 60000000000

/-- A BuildRun `default/run-1` of Build `app` that succeeded at instant 0 and sets
`ttlAfterSucceeded` to one hour in its own retention policy. -/
def succeededRun : BuildRun :=
  { Namespace := "default", Name := "run-1",
    Spec := { BuildRef := some ⟨"app"⟩, Retention := some ⟨none, some hour⟩ },
    Status := { Conditions := [⟨.Succeeded, .True⟩], CompletionTime := some ⟨0⟩,
                BuildSpec := none } }

/-- The request for `default/run-1`. -/
def request : Request := ⟨⟨"default", "run-1"⟩⟩

/-- A healthy store that holds `succeededRun` only. -/
def client : Client :=
  { objects := [succeededRun], getFailure := none, deleteFailure := none, deleteCalls := [] }

/-- A BuildRun `default/run-2` that failed at instant 0; its own retention policy sets only
`ttlAfterSucceeded` (one hour), the retention policy of `Status.BuildSpec` sets
`ttlAfterFailed` to two hours and `ttlAfterSucceeded` to five hours. -/
def inheritingRun : BuildRun :=
  { Namespace := "default", Name := "run-2",
    Spec := { BuildRef := some ⟨"app"⟩, Retention := some ⟨none, some hour⟩ },
    Status := { Conditions := [⟨.Succeeded, .False⟩], CompletionTime := some ⟨0⟩,
                BuildSpec := some ⟨some ⟨none, none, some (2 * hour), some (5 * hour)⟩⟩ } }

/-- A BuildRun `default/run-3` that is still running: its `Succeeded` condition is `Unknown`;
it has no retention policy and no `Status.BuildSpec`. -/
def runningRun : BuildRun :=
  { Namespace := "default", Name := "run-3",
    Spec := { BuildRef := some ⟨"app"⟩, Retention := none },
    Status := { Conditions := [⟨.Succeeded, .Unknown⟩], CompletionTime := none,
                BuildSpec := none } }

/-- The BuildRun `default/run-3` once it has succeeded, at instant 0; still without any
retention policy. -/
def finishedRun : BuildRun :=
  { runningRun with
    Status := { Conditions := [⟨.Succeeded, .True⟩], CompletionTime := some ⟨0⟩,
                BuildSpec := none } }

/-- A request for `default/gone`, a BuildRun that no store of the samples holds. -/
def missingRequest : Request := ⟨⟨"default", "gone"⟩⟩

/-- A Build `default/app` with the given `failedLimit` and `succeededLimit` and no TTL. -/
def buildWithLimits (failedLimit succeededLimit : Option Int) : Build :=
  { Namespace := "default", Name := "app",
    Spec := { Retention := some ⟨failedLimit, succeededLimit, none, none⟩ } }

/-- The Build `default/app` without a retention policy. -/
def buildWithoutRetention : Build :=
  { Namespace := "default", Name := "app", Spec := { Retention := none } }

/-- A BuildRun `default/run-4` that succeeded at instant 0 and sets only `ttlAfterFailed`
(one minute); no TTL applies to its outcome. -/
def otherOutcomeRun : BuildRun :=
  { Namespace := "default", Name := "run-4",
    Spec := { BuildRef := some ⟨"app"⟩, Retention := some ⟨some minute, none⟩ },
    Status := { Conditions := [⟨.Succeeded, .True⟩], CompletionTime := some ⟨0⟩,
                BuildSpec := none } }

/-- A BuildRun `default/run-5` that failed at instant 0, without an own retention policy; the
retention policy of `Status.BuildSpec` sets `ttlAfterFailed` to two hours and
`ttlAfterSucceeded` to one hour. -/
def snapshotOnlyRun : BuildRun :=
  { Namespace := "default", Name := "run-5",
    Spec := { BuildRef := some ⟨"app"⟩, Retention := none },
    Status := { Conditions := [⟨.Succeeded, .False⟩], CompletionTime := some ⟨0⟩,
                BuildSpec := some ⟨some ⟨none, none, some (2 * hour), some hour⟩⟩ } }

/-- A BuildRun `default/run-6` on which no condition has been recorded yet. -/
def bareRun : BuildRun :=
  { Namespace := "default", Name := "run-6",
    Spec := { BuildRef := some ⟨"app"⟩, Retention := some ⟨none, some hour⟩ },
    Status := { Conditions := [], CompletionTime := none, BuildSpec := none } }

/-- The BuildRun `default/run-3` after it has succeeded, with a reference to its Build whose
name is empty. -/
def orphanRun : BuildRun :=
  { finishedRun with Spec := { BuildRef := some ⟨""⟩, Retention := none } }

/-- The BuildRun `default/run-3` after it has succeeded, without a reference to a Build. -/
def standaloneRun : BuildRun :=
  { finishedRun with Spec := { BuildRef := none, Retention := none } }

/-- The BuildRun `default/run-1`, succeeded, without a reference to a Build. -/
def succeededStandaloneRun : BuildRun :=
  { succeededRun with Spec := { BuildRef := none, Retention := some ⟨none, some hour⟩ } }

/-- A healthy store that holds the BuildRuns `run-1` to `run-6`. -/
def fullClient : Client :=
  { objects := [succeededRun, inheritingRun, runningRun, otherOutcomeRun, snapshotOnlyRun,
                bareRun],
    getFailure := none, deleteFailure := none, deleteCalls := [] }

/-- The start of the year 2400 (UTC). -/
def year2400 : Time := ⟨13569465600000000000⟩

/-- The instant 2009-11-10 23:00:00 UTC. -/
def year2009 : Time := ⟨1257894000000000000⟩

/-- A BuildRun `default/run-7` whose completion time is the start of the year 2400 and which
sets `ttlAfterSucceeded` to one hour. -/
def futureRun : BuildRun :=
  { Namespace := "default", Name := "run-7",
    Spec := { BuildRef := some ⟨"app"⟩, Retention := some ⟨none, some hour⟩ },
    Status := { Conditions := [⟨.Succeeded, .True⟩], CompletionTime := some year2400,
                BuildSpec := none } }

/-- A healthy store that holds `futureRun` only. -/
def futureClient : Client :=
  { objects := [futureRun], getFailure := none, deleteFailure := none, deleteCalls := [] }

/-- The request for the BuildRun `default/<name>`. -/
def requestFor (name : String) : Request := ⟨⟨"default", name⟩⟩

end Sample

/-! ## Statements about a run -/

/-- The error behaviour asked of a run `r` of `Reconcile` on client `c` for `key`: an error `err`
is returned exactly when the load fails with `err`, not not-found, or a delete request for the
loaded BuildRun is issued and fails with `err`, not not-found; the result returned with an
error is the zero `Result`; a delete answered by not-found ends in the zero `Result` without
error. -/
def ErrorsComeFromStore (c : Client) (key : NamespacedName)
    (r : Run (Result × Option APIError) × Client) : Prop :=
  (∀ err, (∃ result, r.1 = .returned (result, some err)) ↔
    ((c.Get key = .error err ∧ IsNotFound err = false) ∨
     (∃ br, c.Get key = .ok br ∧ r.2.deleteCalls = c.deleteCalls ++ [br] ∧
        (c.Delete br).1 = some err ∧ IsNotFound err = false))) ∧
  (∀ result err, r.1 = .returned (result, some err) → result = {}) ∧
  (∀ br, c.Get key = .ok br → r.2.deleteCalls = c.deleteCalls ++ [br] →
    (c.Delete br).1 = some .notFound → r.1 = .returned ({}, none))

/-! ## Auxiliary facts about time -/

/-- For `u` before `t`, `t.Sub u` is the span `t - u` capped at `maxDuration`. -/
lemma Time.Sub_of_before (u t : Time) (h : u.unixNano < t.unixNano) :
    t.Sub u = min (t.unixNano - u.unixNano) maxDuration := by
  have hnb : t.Before u = false := by
    simp only [Time.Before, decide_eq_false_iff_not]
    omega
  unfold Time.Sub
  simp only [hnb]
  unfold minDuration maxDuration
  by_cases hfits : t.unixNano - u.unixNano ≤ 9223372036854775807
  · have hlow : (-9223372036854775808 : Int) ≤ t.unixNano - u.unixNano := by omega
    rw [min_eq_left hfits, if_pos (And.intro hlow hfits)]
  · have hover : (9223372036854775807 : Int) ≤ t.unixNano - u.unixNano := by omega
    rw [min_eq_right hover, if_neg (fun hc => hfits hc.2)]
    simp

/-! ## Auxiliary facts about `Reconcile` -/

/-- Every call of `Delete` is recorded, whatever the store answers. -/
lemma Client.Delete_deleteCalls (c : Client) (obj : BuildRun) :
    (c.Delete obj).2.deleteCalls = c.deleteCalls ++ [obj] := by
  unfold Client.Delete
  cases c.deleteFailure <;> simp
  split <;> rfl

namespace buildrunttlcleanup

/-- What `Reconcile` does once the BuildRun is loaded and its `Succeeded` condition is found. -/
lemma Reconcile_of_loaded (clock : Clock) (request : Request) (c : Client) (br : BuildRun)
    (condition : Condition)
    (hget : c.Get request.NamespacedName = .ok br)
    (hcond : br.Status.GetCondition .Succeeded = some condition) :
    Reconcile clock request c =
      match condition.Status with
      | .True => Reconcile.afterTTL (reconcileTTL clock (Reconcile.TTLs br).2 br c)
      | .False => Reconcile.afterTTL (reconcileTTL clock (Reconcile.TTLs br).1 br c)
      | _ => (.returned ({}, none), c) := by
  have hget2 : c.Get ⟨request.NamespacedName.Namespace, request.NamespacedName.Name⟩ = .ok br :=
    hget
  unfold Reconcile
  rw [hget2]
  simp only [hcond]

/-- The run of `reconcileTTL` when the deadline lies before the clock reading of the test. -/
lemma reconcileTTL_expired (clock : Clock) (ttl : Duration) (br : BuildRun) (c : Client)
    (completionTime : Time)
    (hct : br.Status.CompletionTime = some completionTime)
    (hnow : (completionTime.Add ttl).unixNano < clock.atBefore.unixNano) :
    reconcileTTL clock (some ttl) br c =
      (.returned (none, (c.Delete br).1.filter (fun err => !IsNotFound err)), (c.Delete br).2) := by
  have hb : (completionTime.Add ttl).Before clock.atBefore = true := by
    simp [Time.Before, hnow]
  unfold reconcileTTL
  simp only [hct, hb, if_true]
  rcases hd : c.Delete br with ⟨_ | err, c1⟩
  · simp
  · cases err <;> simp [IsNotFound, Option.filter]

/-- The run of `reconcileTTL` when the deadline does not lie before the clock reading of the
test. -/
lemma reconcileTTL_pending (clock : Clock) (ttl : Duration) (br : BuildRun) (c : Client)
    (completionTime : Time)
    (hct : br.Status.CompletionTime = some completionTime)
    (hnow : clock.atBefore.unixNano ≤ (completionTime.Add ttl).unixNano) :
    reconcileTTL clock (some ttl) br c =
      (.returned (some ((completionTime.Add ttl).Sub clock.atUntil), none), c) := by
  have hb : (completionTime.Add ttl).Before clock.atBefore = false := by
    simp [Time.Before, hnow]
  unfold reconcileTTL
  simp [hct, hb, Clock.Until]

/-- The two shapes of a run of `reconcileTTL` followed by the tail of `Reconcile`: either no
delete request is issued and no error is returned, or one delete request is issued and the
error returned is the answer of the delete unless that answer is not-found. -/
lemma afterTTL_reconcileTTL_cases (clock : Clock) (ttl : Option Duration) (br : BuildRun)
    (c : Client) :
    ((Reconcile.afterTTL (reconcileTTL clock ttl br c)).2 = c ∧
      ((Reconcile.afterTTL (reconcileTTL clock ttl br c)).1 = .nilDereference ∨
       ∃ result, (Reconcile.afterTTL (reconcileTTL clock ttl br c)).1 =
        .returned (result, none))) ∨
    ((Reconcile.afterTTL (reconcileTTL clock ttl br c)).2 = (c.Delete br).2 ∧
      (Reconcile.afterTTL (reconcileTTL clock ttl br c)).1 =
        .returned ({}, (c.Delete br).1.filter (fun err => !IsNotFound err))) := by
  cases ttl with
  | none => left; simp [reconcileTTL, Reconcile.afterTTL]
  | some d =>
    cases hct : br.Status.CompletionTime with
    | none => left; simp [reconcileTTL, Reconcile.afterTTL, hct]
    | some completionTime =>
      by_cases hnow : (completionTime.Add d).unixNano < clock.atBefore.unixNano
      · right
        rw [reconcileTTL_expired clock d br c completionTime hct hnow]
        cases hd : (c.Delete br).1 with
        | none => simp [Reconcile.afterTTL, Option.filter]
        | some err => cases err <;> simp [Reconcile.afterTTL, Option.filter, IsNotFound]
      · left
        rw [reconcileTTL_pending clock d br c completionTime hct (not_lt.mp hnow)]
        simp [Reconcile.afterTTL]

/-- A run that ends on a failed load meets `ErrorsComeFromStore`. -/
lemma errorsComeFromStore_of_failed_load (c : Client) (key : NamespacedName) (e : APIError)
    (hget : c.Get key = .error e) :
    ErrorsComeFromStore c key
      (if IsNotFound e then (.returned ({}, none), c) else (.returned ({}, some e), c)) := by
  unfold ErrorsComeFromStore
  rw [hget]
  cases e <;> simp [IsNotFound]

/-- A run that loads the BuildRun, issues no delete and returns no error meets
`ErrorsComeFromStore`. -/
lemma errorsComeFromStore_of_no_delete (c : Client) (key : NamespacedName) (br : BuildRun)
    (r : Run (Result × Option APIError) × Client)
    (hget : c.Get key = .ok br) (hstate : r.2 = c)
    (hout : r.1 = .nilDereference ∨ ∃ result, r.1 = .returned (result, none)) :
    ErrorsComeFromStore c key r := by
  unfold ErrorsComeFromStore
  rw [hget, hstate]
  rcases hout with h | ⟨result, h⟩ <;> rw [h] <;> simp

/-- A run that loads the BuildRun, issues the delete and hands on its answer, not-found apart,
meets `ErrorsComeFromStore`. -/
lemma errorsComeFromStore_of_delete (c : Client) (key : NamespacedName) (br : BuildRun)
    (r : Run (Result × Option APIError) × Client)
    (hget : c.Get key = .ok br) (hstate : r.2 = (c.Delete br).2)
    (hout : r.1 = .returned ({}, (c.Delete br).1.filter (fun err => !IsNotFound err))) :
    ErrorsComeFromStore c key r := by
  unfold ErrorsComeFromStore
  rw [hget, hstate, hout, Client.Delete_deleteCalls]
  cases hd : (c.Delete br).1 with
  | none => simp [Option.filter, hd]
  | some err =>
    cases err with
    | notFound => simp [Option.filter, IsNotFound, hd]
    | other reason =>
      simp only [Option.filter, IsNotFound]
      refine ⟨?_, ?_, ?_⟩
      · intro err
        constructor
        · rintro ⟨result, h⟩
          simp at h
          right
          refine ⟨br, rfl, rfl, ?_, ?_⟩
          · rw [hd, h.2]
          · rw [← h.2]
        · rintro (⟨h, _⟩ | ⟨br2, h2, _, h3, _⟩)
          · simp at h
          · simp at h2
            subst h2
            rw [hd] at h3
            simp at h3
            exact ⟨{}, by simp [h3]⟩
      · intro result err h
        simp at h
        exact h.1.symm
      · intro br2 h2 _ h3
        simp at h2
        subst h2
        rw [hd] at h3
        simp at h3

/-- Every run of `reconcileTTL` followed by the tail of `Reconcile` meets
`ErrorsComeFromStore`. -/
lemma errorsComeFromStore_afterTTL (clock : Clock) (ttl : Option Duration) (br : BuildRun)
    (c : Client) (key : NamespacedName) (hget : c.Get key = .ok br) :
    ErrorsComeFromStore c key (Reconcile.afterTTL (reconcileTTL clock ttl br c)) := by
  rcases afterTTL_reconcileTTL_cases clock ttl br c with ⟨hstate, hout⟩ | ⟨hstate, hout⟩
  · exact errorsComeFromStore_of_no_delete c key br _ hget hstate hout
  · exact errorsComeFromStore_of_delete c key br _ hget hstate hout

end buildrunttlcleanup

/-! ## Auxiliary facts about the predicates -/

namespace buildrunttlcleanup

/-- The test `hasTTL` in terms of the fields it reads. -/
lemma predBuildRun.hasTTL_iff (o : BuildRun) :
    predBuildRun.hasTTL o = true ↔
      (∃ own, o.Spec.Retention = some own ∧
        (own.TTLAfterFailed ≠ none ∨ own.TTLAfterSucceeded ≠ none)) ∨
      (∃ bs r, o.Status.BuildSpec = some bs ∧ bs.Retention = some r ∧
        (r.TTLAfterFailed ≠ none ∨ r.TTLAfterSucceeded ≠ none)) := by
  obtain ⟨ns, nm, ⟨ref, ret⟩, ⟨conds, ct, bspec⟩⟩ := o
  rcases ret with _ | ⟨f, s⟩ <;> rcases bspec with _ | ⟨_ | ⟨fl, sl, f2, s2⟩⟩ <;>
    simp [predBuildRun.hasTTL] <;>
    (try cases f) <;> (try cases s) <;> (try cases f2) <;> (try cases s2) <;> simp

end buildrunttlcleanup

/-! ## Properties of the TTL reconciler -/

namespace buildrunttlcleanup

/-- C1, at the failing input: `default/run-1` succeeded at instant 0 with a TTL of one hour, and
the clock shows exactly instant 0 plus one hour. The BuildRun is loaded, its condition is
`True`, the TTL of that outcome is present and `now >= completionTime + ttl` holds: the TTL has
been reached. Yet `Reconcile` issues no delete request and returns a requeue directive (with
delay 0), because the expiry test `Before` is strict. -/
theorem Reconcile_at_deadline_requeues :
    Sample.client.Get Sample.request.NamespacedName = .ok Sample.succeededRun ∧
    Sample.succeededRun.Status.GetCondition .Succeeded = some ⟨.Succeeded, .True⟩ ∧
    (Reconcile.TTLs Sample.succeededRun).2 = some Sample.hour ∧
    Sample.succeededRun.Status.CompletionTime = some ⟨0⟩ ∧
    (Time.mk Sample.hour).unixNano ≥ ((Time.mk 0).Add Sample.hour).unixNano ∧
    Reconcile (Clock.fixed ⟨Sample.hour⟩) Sample.request Sample.client =
      (.returned ({ Requeue := true, RequeueAfter := 0 }, none), Sample.client) ∧
    (Reconcile (Clock.fixed ⟨Sample.hour⟩) Sample.request Sample.client).2.deleteCalls = [] := by
  refine ⟨by rfl, by decide, by decide, by decide, by decide, by decide, by decide⟩

/-- C2, refuted on a run: `default/run-7` succeeded at the start of the year 2400 with a TTL of
one hour, and the clock shows an instant in the year 2009. The BuildRun is loaded, its
condition is `True`, the TTL is present and `now < completionTime + ttl`; the span
`(completionTime + ttl) - now` is 12311575200000000000 ns, but `Reconcile` returns
`RequeueAfter = 9223372036854775807`, the largest `time.Duration`. -/
theorem Reconcile_requeue_delay_is_capped :
    Sample.futureClient.Get (Sample.requestFor "run-7").NamespacedName = .ok Sample.futureRun ∧
    Sample.futureRun.Status.GetCondition .Succeeded = some ⟨.Succeeded, .True⟩ ∧
    (Reconcile.TTLs Sample.futureRun).2 = some Sample.hour ∧
    Sample.futureRun.Status.CompletionTime = some Sample.year2400 ∧
    Sample.year2009.unixNano < (Sample.year2400.Add Sample.hour).unixNano ∧
    (Sample.year2400.Add Sample.hour).unixNano - Sample.year2009.unixNano =
      12311575200000000000 ∧
    Reconcile (Clock.fixed Sample.year2009) (Sample.requestFor "run-7") Sample.futureClient =
      (.returned ({ Requeue := true, RequeueAfter := 9223372036854775807 }, none),
        Sample.futureClient) := by
  refine ⟨by rfl, by decide, by decide, by decide, by decide, by decide, by decide⟩

/-- C2, amended: when the BuildRun is loaded, its `Succeeded` condition is `True` or `False`,
the TTL resolved for that outcome is present and the clock shows `now` with
`now < completionTime + ttl`, `Reconcile` leaves the client as it was (no delete request),
returns no error and returns `Requeue` with `RequeueAfter` equal to
`(completionTime + ttl) - now`, capped at `maxDuration`; so it is exactly
`(completionTime + ttl) - now` whenever that span is at most `maxDuration`. -/
theorem Reconcile_requeues_before_deadline (now : Time) (request : Request) (c : Client)
    (br : BuildRun) (condition : Condition) (ttl : Duration) (completionTime : Time)
    (hget : c.Get request.NamespacedName = .ok br)
    (hcond : br.Status.GetCondition .Succeeded = some condition)
    (hterm : (condition.Status = .True ∧ (Reconcile.TTLs br).2 = some ttl) ∨
      (condition.Status = .False ∧ (Reconcile.TTLs br).1 = some ttl))
    (hct : br.Status.CompletionTime = some completionTime)
    (hnow : now.unixNano < (completionTime.Add ttl).unixNano) :
    Reconcile (Clock.fixed now) request c =
      (.returned ({ Requeue := true,
                    RequeueAfter :=
                      min ((completionTime.Add ttl).unixNano - now.unixNano) maxDuration },
        none), c) ∧
    (Reconcile (Clock.fixed now) request c).2.deleteCalls = c.deleteCalls ∧
    ((completionTime.Add ttl).unixNano - now.unixNano ≤ maxDuration →
      Reconcile (Clock.fixed now) request c =
        (.returned ({ Requeue := true,
                      RequeueAfter := (completionTime.Add ttl).unixNano - now.unixNano },
          none), c)) := by
  have hrun := Reconcile_of_loaded (Clock.fixed now) request c br condition hget hcond
  have httl := reconcileTTL_pending (Clock.fixed now) ttl br c completionTime hct
    (le_of_lt hnow)
  have hsub := Time.Sub_of_before now (completionTime.Add ttl) hnow
  have hmain : Reconcile (Clock.fixed now) request c =
      (.returned ({ Requeue := true,
                    RequeueAfter :=
                      min ((completionTime.Add ttl).unixNano - now.unixNano) maxDuration },
        none), c) := by
    rcases hterm with ⟨hs, ht⟩ | ⟨hs, ht⟩
    all_goals
      rw [hs] at hrun
      simp only [ht, httl] at hrun
      rw [hrun]
      simp [Reconcile.afterTTL, Clock.fixed, hsub]
  refine ⟨hmain, by rw [hmain], ?_⟩
  intro hfits
  rw [hmain, min_eq_left hfits]

/-- C2, amended, on the sample: completion at instant 0, `ttlAfterSucceeded` of one hour and a
clock at 30 minutes give a requeue after 30 minutes and no delete. -/
theorem Reconcile_requeues_before_deadline_witness :
    Reconcile (Clock.fixed ⟨30 * Sample.minute⟩) Sample.request Sample.client =
      (.returned ({ Requeue := true, RequeueAfter := 30 * Sample.minute }, none),
        Sample.client) ∧
    (Reconcile (Clock.fixed ⟨30 * Sample.minute⟩) Sample.request Sample.client).2.deleteCalls =
      Sample.client.deleteCalls :=
  ⟨(Reconcile_requeues_before_deadline ⟨30 * Sample.minute⟩ Sample.request Sample.client
      Sample.succeededRun ⟨.Succeeded, .True⟩ Sample.hour ⟨0⟩ (by rfl) (by decide)
      (Or.inl ⟨by decide, by decide⟩) (by decide) (by decide)).2.2 (by decide),
    (Reconcile_requeues_before_deadline ⟨30 * Sample.minute⟩ Sample.request Sample.client
      Sample.succeededRun ⟨.Succeeded, .True⟩ Sample.hour ⟨0⟩ (by rfl) (by decide)
      (Or.inl ⟨by decide, by decide⟩) (by decide) (by decide)).2.1⟩

/-- C3: for a BuildRun with an own retention policy, the TTLs that `Reconcile` applies are, for
each outcome on its own: the own TTL when it is present; else the TTL of the retention policy
in `Status.BuildSpec` for that outcome; else (no `Status.BuildSpec`, or none with a retention
policy) absent. -/
theorem TTLs_own_policy_first (br : BuildRun) (own : BuildRunRetention)
    (hown : br.Spec.Retention = some own) :
    (∀ d, own.TTLAfterFailed = some d → (Reconcile.TTLs br).1 = some d) ∧
    (own.TTLAfterFailed = none → ∀ bs r, br.Status.BuildSpec = some bs → bs.Retention = some r →
      (Reconcile.TTLs br).1 = r.TTLAfterFailed) ∧
    (own.TTLAfterFailed = none →
      (br.Status.BuildSpec = none ∨ ∃ bs, br.Status.BuildSpec = some bs ∧ bs.Retention = none) →
      (Reconcile.TTLs br).1 = none) ∧
    (∀ d, own.TTLAfterSucceeded = some d → (Reconcile.TTLs br).2 = some d) ∧
    (own.TTLAfterSucceeded = none → ∀ bs r, br.Status.BuildSpec = some bs →
      bs.Retention = some r → (Reconcile.TTLs br).2 = r.TTLAfterSucceeded) ∧
    (own.TTLAfterSucceeded = none →
      (br.Status.BuildSpec = none ∨ ∃ bs, br.Status.BuildSpec = some bs ∧ bs.Retention = none) →
      (Reconcile.TTLs br).2 = none) := by
  refine ⟨?_, ?_, ?_, ?_, ?_, ?_⟩
  · intro d hd
    simp [Reconcile.TTLs, hown, hd]
  · intro hd bs r hbs hr
    simp [Reconcile.TTLs, hown, hd, hbs, hr]
  · intro hd hnone
    rcases hnone with hbs | ⟨bs, hbs, hr⟩
    · simp [Reconcile.TTLs, hown, hd, hbs]
    · simp [Reconcile.TTLs, hown, hd, hbs, hr]
  · intro d hd
    simp [Reconcile.TTLs, hown, hd]
  · intro hd bs r hbs hr
    simp [Reconcile.TTLs, hown, hd, hbs, hr]
  · intro hd hnone
    rcases hnone with hbs | ⟨bs, hbs, hr⟩
    · simp [Reconcile.TTLs, hown, hd, hbs]
    · simp [Reconcile.TTLs, hown, hd, hbs, hr]

/-- C3 on the sample: own `ttlAfterFailed` absent and inherited `ttlAfterFailed` of two hours
resolve to two hours; own `ttlAfterSucceeded` of one hour wins over the inherited five hours. -/
theorem TTLs_own_policy_first_witness :
    Sample.inheritingRun.Spec.Retention = some ⟨none, some Sample.hour⟩ ∧
    (Reconcile.TTLs Sample.inheritingRun).1 = some (2 * Sample.hour) ∧
    (Reconcile.TTLs Sample.inheritingRun).2 = some Sample.hour :=
  ⟨rfl,
    (TTLs_own_policy_first Sample.inheritingRun ⟨none, some Sample.hour⟩ rfl).2.1 rfl
      ⟨some ⟨none, none, some (2 * Sample.hour), some (5 * Sample.hour)⟩⟩
      ⟨none, none, some (2 * Sample.hour), some (5 * Sample.hour)⟩ rfl rfl,
    (TTLs_own_policy_first Sample.inheritingRun ⟨none, some Sample.hour⟩ rfl).2.2.2.1
      Sample.hour rfl⟩

end buildrunttlcleanup

/-! ## Properties of the BuildRun predicates -/

namespace buildrunttlcleanup

/-- C4, refuted on an event: `default/run-3` goes from `Unknown` to `True` and carries no TTL
anywhere; the update predicate of the TTL cleanup controller does not admit the event. -/
theorem UpdateFunc_drops_completion_without_ttl :
    Sample.runningRun.Status.GetCondition .Succeeded = some ⟨.Succeeded, .Unknown⟩ ∧
    Sample.finishedRun.Status.GetCondition .Succeeded = some ⟨.Succeeded, .True⟩ ∧
    predBuildRun.UpdateFunc ⟨Sample.runningRun, Sample.finishedRun⟩ = false := by
  refine ⟨by decide, by decide, by decide⟩

/-- C4, amended: the update predicate of the TTL cleanup controller admits an event exactly when
the `Succeeded` condition is `Unknown` in the old BuildRun, is `True` or `False` in the new one,
and the new BuildRun sets `ttlAfterFailed` or `ttlAfterSucceeded` in its own retention policy or
in the retention policy of `Status.BuildSpec`. -/
theorem UpdateFunc_admits_iff (e : UpdateEvent BuildRun) :
    predBuildRun.UpdateFunc e = true ↔
      (∃ oldCondition newCondition,
        e.ObjectOld.Status.GetCondition .Succeeded = some oldCondition ∧
        e.ObjectNew.Status.GetCondition .Succeeded = some newCondition ∧
        oldCondition.Status = .Unknown ∧
        (newCondition.Status = .True ∨ newCondition.Status = .False)) ∧
      ((∃ own, e.ObjectNew.Spec.Retention = some own ∧
        (own.TTLAfterFailed ≠ none ∨ own.TTLAfterSucceeded ≠ none)) ∨
       (∃ bs r, e.ObjectNew.Status.BuildSpec = some bs ∧ bs.Retention = some r ∧
        (r.TTLAfterFailed ≠ none ∨ r.TTLAfterSucceeded ≠ none))) := by
  rw [← predBuildRun.hasTTL_iff]
  unfold predBuildRun.UpdateFunc
  cases ho : e.ObjectOld.Status.GetCondition .Succeeded with
  | none => simp [ho]
  | some oc =>
    cases hn : e.ObjectNew.Status.GetCondition .Succeeded with
    | none => simp [ho, hn]
    | some nc =>
      rcases oc with ⟨ot, os⟩
      rcases nc with ⟨nt, nst⟩
      cases os <;> cases nst <;> simp [ho, hn]

/-- C5, refuted on an event: the create event of `default/run-1`, which already carries the
condition `True` and an own `ttlAfterSucceeded`, is admitted by the create predicate of the TTL
cleanup controller. -/
theorem CreateFunc_admits_finished_run_with_ttl :
    predBuildRun.CreateFunc ⟨Sample.succeededRun⟩ = true := by
  decide

/-- C5, amended: the create predicate of the TTL cleanup controller admits an event exactly when
the created BuildRun has a `Succeeded` condition with status `True` or `False` and sets
`ttlAfterFailed` or `ttlAfterSucceeded` in its own retention policy or in the retention policy
of `Status.BuildSpec`; every other create event is dropped. -/
theorem CreateFunc_admits_iff (e : CreateEvent BuildRun) :
    predBuildRun.CreateFunc e = true ↔
      (∃ condition, e.Object.Status.GetCondition .Succeeded = some condition ∧
        (condition.Status = .True ∨ condition.Status = .False)) ∧
      ((∃ own, e.Object.Spec.Retention = some own ∧
        (own.TTLAfterFailed ≠ none ∨ own.TTLAfterSucceeded ≠ none)) ∨
       (∃ bs r, e.Object.Status.BuildSpec = some bs ∧ bs.Retention = some r ∧
        (r.TTLAfterFailed ≠ none ∨ r.TTLAfterSucceeded ≠ none))) := by
  rw [← predBuildRun.hasTTL_iff]
  unfold predBuildRun.CreateFunc
  cases hc : e.Object.Status.GetCondition .Succeeded with
  | none => simp [hc]
  | some condition =>
    rcases condition with ⟨t, st⟩
    cases st <;> simp [hc]

end buildrunttlcleanup

/-- C6, refuted on an event: the old BuildRun `default/run-1` already has the condition `True`,
the new one has no reference to a Build; the BuildRun update predicate of the build limit
cleanup controller dereferences the missing reference instead of returning `false`. -/
theorem predBuildRun_UpdateFunc_terminal_old_without_reference :
    Sample.succeededRun.Status.GetCondition .Succeeded = some ⟨.Succeeded, .True⟩ ∧
    Sample.succeededStandaloneRun.Spec.BuildRef = none ∧
    buildlimitcleanup.predBuildRun.UpdateFunc
      ⟨Sample.succeededRun, Sample.succeededStandaloneRun⟩ = .nilDereference ∧
    buildlimitcleanup.predBuildRun.UpdateFunc
      ⟨Sample.succeededRun, Sample.succeededStandaloneRun⟩ ≠ .returned false := by
  refine ⟨by decide, by decide, by decide, by decide⟩

/-- C6, amended: an update event whose old BuildRun already has the `Succeeded` condition `True`
or `False` is dropped (`false`) by the BuildRun update predicate of the TTL cleanup controller;
the one of the build limit cleanup controller returns `false` whenever the new BuildRun
carries a reference to its Build, and in no case admits the event; whatever else the two
BuildRuns hold. -/
theorem predBuildRun_UpdateFunc_drops_terminal_old (e : UpdateEvent BuildRun)
    (oldCondition : Condition)
    (hold : e.ObjectOld.Status.GetCondition .Succeeded = some oldCondition)
    (hterm : oldCondition.Status = .True ∨ oldCondition.Status = .False) :
    buildrunttlcleanup.predBuildRun.UpdateFunc e = false ∧
    (∀ buildRef, e.ObjectNew.Spec.BuildRef = some buildRef →
      buildlimitcleanup.predBuildRun.UpdateFunc e = .returned false) ∧
    buildlimitcleanup.predBuildRun.UpdateFunc e ≠ .returned true := by
  have hlimit : ∀ buildRef, e.ObjectNew.Spec.BuildRef = some buildRef →
      buildlimitcleanup.predBuildRun.UpdateFunc e = .returned false := by
    intro buildRef href
    unfold buildlimitcleanup.predBuildRun.UpdateFunc
    rcases hn : e.ObjectNew.Status.GetCondition .Succeeded with _ | nc
    · by_cases hname : buildRef.Name = "" <;> simp [href, hold, hn, hname]
    · by_cases hname : buildRef.Name = "" <;>
        rcases hterm with h | h <;> simp [href, hold, hn, hname, h]
  refine ⟨?_, hlimit, ?_⟩
  · unfold buildrunttlcleanup.predBuildRun.UpdateFunc
    rcases hn : e.ObjectNew.Status.GetCondition .Succeeded with _ | nc
    · simp [hold, hn]
    · rcases hterm with h | h <;> simp [hold, hn, h]
  · cases href : e.ObjectNew.Spec.BuildRef with
    | none =>
      unfold buildlimitcleanup.predBuildRun.UpdateFunc
      simp [href]
    | some buildRef =>
      rw [hlimit buildRef href]
      simp

/-- C6, amended, on the sample: an update of `default/run-1` after it has succeeded, here one
that adds an inherited policy, is dropped by both predicates. -/
theorem predBuildRun_UpdateFunc_drops_terminal_old_witness :
    buildrunttlcleanup.predBuildRun.UpdateFunc
      ⟨Sample.succeededRun, { Sample.succeededRun with
        Status := { Sample.succeededRun.Status with
          BuildSpec := some ⟨some ⟨some 3, none, some Sample.hour, none⟩⟩ } }⟩ = false ∧
    buildlimitcleanup.predBuildRun.UpdateFunc
      ⟨Sample.succeededRun, { Sample.succeededRun with
        Status := { Sample.succeededRun.Status with
          BuildSpec := some ⟨some ⟨some 3, none, some Sample.hour, none⟩⟩ } }⟩ =
      .returned false :=
  ⟨(predBuildRun_UpdateFunc_drops_terminal_old _ ⟨.Succeeded, .True⟩ (by decide)
      (Or.inl rfl)).1,
    (predBuildRun_UpdateFunc_drops_terminal_old _ ⟨.Succeeded, .True⟩ (by decide)
      (Or.inl rfl)).2.1 ⟨"app"⟩ rfl⟩

/-! ## Properties of the Build predicates -/

namespace buildlimitcleanup

/-- C7: the Build update predicate admits an event exactly when (a) the old Build has no
retention policy, the new one has one and sets `failedLimit` or `succeededLimit`; or (b) both
have a retention policy and one of the two limits is set in the new Build and absent in the old
one; or (c) both have a retention policy and one of the two limits is set in both, the new
value strictly below the old one. -/
theorem pred_UpdateFunc_admits_iff (e : UpdateEvent Build) :
    pred.UpdateFunc e = true ↔
      (e.ObjectOld.Spec.Retention = none ∧
        ∃ newR, e.ObjectNew.Spec.Retention = some newR ∧
          (newR.FailedLimit ≠ none ∨ newR.SucceededLimit ≠ none)) ∨
      (∃ oldR newR, e.ObjectOld.Spec.Retention = some oldR ∧
        e.ObjectNew.Spec.Retention = some newR ∧
        ((newR.FailedLimit ≠ none ∧ oldR.FailedLimit = none) ∨
         (newR.SucceededLimit ≠ none ∧ oldR.SucceededLimit = none))) ∨
      (∃ oldR newR, e.ObjectOld.Spec.Retention = some oldR ∧
        e.ObjectNew.Spec.Retention = some newR ∧
        ((∃ newLimit oldLimit, newR.FailedLimit = some newLimit ∧
            oldR.FailedLimit = some oldLimit ∧ newLimit < oldLimit) ∨
         (∃ newLimit oldLimit, newR.SucceededLimit = some newLimit ∧
            oldR.SucceededLimit = some oldLimit ∧ newLimit < oldLimit))) := by
  obtain ⟨⟨ons, onm, ⟨oret⟩⟩, ⟨nns, nnm, ⟨nret⟩⟩⟩ := e
  rcases oret with _ | ⟨ofl, osl, otf, ots⟩ <;> rcases nret with _ | ⟨nfl, nsl, ntf, nts⟩ <;>
    simp [pred.UpdateFunc]
  · cases nfl <;> cases nsl <;> simp
  · cases ofl <;> cases osl <;> cases nfl <;> cases nsl <;> simp

/-- C8: the Build update predicate (1) admits every update in which `succeededLimit` is set in
both Builds and is lower in the new one; (2) drops every update whose new retention policy is
the old one with one limit, set before, raised; (3) drops every update whose new Build has no
retention policy. -/
theorem pred_UpdateFunc_limits_monotone (e : UpdateEvent Build) :
    (∀ oldR newR oldLimit newLimit,
      e.ObjectOld.Spec.Retention = some oldR → e.ObjectNew.Spec.Retention = some newR →
      oldR.SucceededLimit = some oldLimit → newR.SucceededLimit = some newLimit →
      newLimit < oldLimit → pred.UpdateFunc e = true) ∧
    (∀ oldR oldLimit newLimit, e.ObjectOld.Spec.Retention = some oldR → oldLimit < newLimit →
      ((oldR.SucceededLimit = some oldLimit ∧
          e.ObjectNew.Spec.Retention = some { oldR with SucceededLimit := some newLimit }) ∨
       (oldR.FailedLimit = some oldLimit ∧
          e.ObjectNew.Spec.Retention = some { oldR with FailedLimit := some newLimit })) →
      pred.UpdateFunc e = false) ∧
    (e.ObjectNew.Spec.Retention = none → pred.UpdateFunc e = false) := by
  obtain ⟨⟨ons, onm, ⟨oret⟩⟩, ⟨nns, nnm, ⟨nret⟩⟩⟩ := e
  refine ⟨?_, ?_, ?_⟩
  · intro oldR newR oldLimit newLimit ho hn hol hnl hlt
    simp only at ho hn
    obtain ⟨ofl, osl, otf, ots⟩ := oldR
    obtain ⟨nfl, nsl, ntf, nts⟩ := newR
    simp only at hol hnl
    subst ho hn hol hnl
    cases ofl <;> cases nfl <;> simp [pred.UpdateFunc, hlt]
  · intro oldR oldLimit newLimit ho hlt hchange
    simp only at ho hchange
    obtain ⟨ofl, osl, otf, ots⟩ := oldR
    subst ho
    rcases hchange with ⟨hol, hn⟩ | ⟨hol, hn⟩
    · simp only at hol hn
      subst hol hn
      cases ofl <;> simp [pred.UpdateFunc, le_of_lt hlt]
    · simp only at hol hn
      subst hol hn
      cases osl <;> simp [pred.UpdateFunc, le_of_lt hlt]
  · intro hn
    simp only at hn
    subst hn
    cases oret <;> simp [pred.UpdateFunc]

/-- C8 on the samples: lowering `succeededLimit` from 5 to 3 is admitted, raising it from 3 to 5
is dropped, and so is removing the retention policy. -/
theorem pred_UpdateFunc_limits_monotone_witness :
    pred.UpdateFunc ⟨Sample.buildWithLimits none (some 5),
      Sample.buildWithLimits none (some 3)⟩ = true ∧
    pred.UpdateFunc ⟨Sample.buildWithLimits none (some 3),
      Sample.buildWithLimits none (some 5)⟩ = false ∧
    pred.UpdateFunc ⟨Sample.buildWithLimits none (some 3),
      Sample.buildWithoutRetention⟩ = false :=
  ⟨(pred_UpdateFunc_limits_monotone _).1 ⟨none, some 5, none, none⟩ ⟨none, some 3, none, none⟩
      5 3 rfl rfl rfl rfl (by decide),
    (pred_UpdateFunc_limits_monotone ⟨Sample.buildWithLimits none (some 3),
      Sample.buildWithLimits none (some 5)⟩).2.1 ⟨none, some 3, none, none⟩ 3 5 rfl
      (by decide) (Or.inl ⟨rfl, rfl⟩),
    (pred_UpdateFunc_limits_monotone _).2.2 rfl⟩

end buildlimitcleanup

/-! ## Errors of the TTL reconciler -/

namespace buildrunttlcleanup

/-- C9: `Reconcile` returns the error `err` exactly when loading the BuildRun fails with `err`
and `err` is not not-found, or the BuildRun is loaded, a delete request for it is issued and
the delete fails with `err`, which is not not-found. The result returned with an error is the
zero `Result`. When the delete that was issued answers not-found, `Reconcile` returns the zero
`Result` and no error. -/
theorem Reconcile_error_iff (clock : Clock) (request : Request) (c : Client) :
    (∀ err, (∃ result, (Reconcile clock request c).1 = .returned (result, some err)) ↔
      ((c.Get request.NamespacedName = .error err ∧ IsNotFound err = false) ∨
       (∃ br, c.Get request.NamespacedName = .ok br ∧
          (Reconcile clock request c).2.deleteCalls = c.deleteCalls ++ [br] ∧
          (c.Delete br).1 = some err ∧ IsNotFound err = false))) ∧
    (∀ result err, (Reconcile clock request c).1 = .returned (result, some err) →
      result = {}) ∧
    (∀ br, c.Get request.NamespacedName = .ok br →
      (Reconcile clock request c).2.deleteCalls = c.deleteCalls ++ [br] →
      (c.Delete br).1 = some .notFound →
      (Reconcile clock request c).1 = .returned ({}, none)) := by
  have hkey : (⟨request.NamespacedName.Namespace, request.NamespacedName.Name⟩ :
      NamespacedName) = request.NamespacedName := rfl
  change ErrorsComeFromStore c request.NamespacedName (Reconcile clock request c)
  cases hget : c.Get request.NamespacedName with
  | error e =>
    have hrun : Reconcile clock request c =
        (if IsNotFound e then (.returned ({}, none), c) else (.returned ({}, some e), c)) := by
      unfold Reconcile
      rw [hkey, hget]
    rw [hrun]
    exact errorsComeFromStore_of_failed_load c _ e hget
  | ok br =>
    cases hcond : br.Status.GetCondition .Succeeded with
    | none =>
      have hrun : Reconcile clock request c = (.nilDereference, c) := by
        unfold Reconcile
        rw [hkey, hget]
        simp only [hcond]
      rw [hrun]
      exact errorsComeFromStore_of_no_delete c _ br _ hget rfl (Or.inl rfl)
    | some condition =>
      have hrun := Reconcile_of_loaded clock request c br condition hget hcond
      rw [hrun]
      rcases condition with ⟨t, st⟩
      cases st with
      | True => exact errorsComeFromStore_afterTTL clock _ br c _ hget
      | False => exact errorsComeFromStore_afterTTL clock _ br c _ hget
      | Unknown => exact errorsComeFromStore_of_no_delete c _ br _ hget rfl (Or.inr ⟨{}, rfl⟩)
      | other v => exact errorsComeFromStore_of_no_delete c _ br _ hget rfl (Or.inr ⟨{}, rfl⟩)

/-- C10: when loading the BuildRun of the request reports not-found, `Reconcile` returns the
zero `Result` and no error, and leaves the client as it was: no delete request is issued. -/
theorem Reconcile_not_found_is_done (clock : Clock) (request : Request) (c : Client)
    (hget : c.Get request.NamespacedName = .error .notFound) :
    Reconcile clock request c = (.returned ({}, none), c) ∧
    (Reconcile clock request c).2.deleteCalls = c.deleteCalls := by
  have hget2 : c.Get ⟨request.NamespacedName.Namespace, request.NamespacedName.Name⟩ =
      .error .notFound := hget
  have hrun : Reconcile clock request c = (.returned ({}, none), c) := by
    unfold Reconcile
    rw [hget2]
    simp [IsNotFound]
  exact ⟨hrun, by rw [hrun]⟩

/-- C10 on the sample: the store holds `default/run-1` only, and the request for `default/gone`
is done at once. -/
theorem Reconcile_not_found_is_done_witness :
    Reconcile (Clock.fixed ⟨Sample.hour⟩) Sample.missingRequest Sample.client =
      (.returned ({}, none), Sample.client) ∧
    (Reconcile (Clock.fixed ⟨Sample.hour⟩) Sample.missingRequest Sample.client).2.deleteCalls =
      Sample.client.deleteCalls :=
  Reconcile_not_found_is_done (Clock.fixed ⟨Sample.hour⟩) Sample.missingRequest Sample.client
    (by rfl)

end buildrunttlcleanup

/-! ## Further properties of the TTL reconciler -/

namespace buildrunttlcleanup

/-- C11: when the BuildRun is loaded, its `Succeeded` condition is `True` or `False` and the TTL
resolved for that outcome is absent, `Reconcile` returns the zero `Result` and no error and
leaves the client as it was, whatever the clock shows and whatever the TTL of the other
outcome is. -/
theorem Reconcile_without_ttl_is_done (clock : Clock) (request : Request) (c : Client)
    (br : BuildRun) (condition : Condition)
    (hget : c.Get request.NamespacedName = .ok br)
    (hcond : br.Status.GetCondition .Succeeded = some condition)
    (hterm : (condition.Status = .True ∧ (Reconcile.TTLs br).2 = none) ∨
      (condition.Status = .False ∧ (Reconcile.TTLs br).1 = none)) :
    Reconcile clock request c = (.returned ({}, none), c) ∧
    (Reconcile clock request c).2.deleteCalls = c.deleteCalls := by
  have hrun := Reconcile_of_loaded clock request c br condition hget hcond
  have hmain : Reconcile clock request c = (.returned ({}, none), c) := by
    rcases hterm with ⟨hs, ht⟩ | ⟨hs, ht⟩
    all_goals
      rw [hs] at hrun
      simp only [ht] at hrun
      rw [hrun]
      simp [reconcileTTL, Reconcile.afterTTL]
  exact ⟨hmain, by rw [hmain]⟩

/-- C11 on the sample: `default/run-4` succeeded and sets only `ttlAfterFailed` of one minute;
one hour after completion the run is done, nothing is deleted. -/
theorem Reconcile_without_ttl_is_done_witness :
    (Reconcile.TTLs Sample.otherOutcomeRun).1 = some Sample.minute ∧
    Reconcile (Clock.fixed ⟨Sample.hour⟩) (Sample.requestFor "run-4") Sample.fullClient =
      (.returned ({}, none), Sample.fullClient) ∧
    (Reconcile (Clock.fixed ⟨Sample.hour⟩) (Sample.requestFor "run-4")
      Sample.fullClient).2.deleteCalls = Sample.fullClient.deleteCalls :=
  ⟨by decide,
    Reconcile_without_ttl_is_done (Clock.fixed ⟨Sample.hour⟩) (Sample.requestFor "run-4")
      Sample.fullClient Sample.otherOutcomeRun ⟨.Succeeded, .True⟩ (by rfl) (by decide)
      (Or.inl ⟨by decide, by decide⟩)⟩

/-- C14: for a BuildRun without an own retention policy, the TTLs that `Reconcile` applies are
those of the retention policy in `Status.BuildSpec`, for both outcomes, and both are absent
when there is no `Status.BuildSpec` or it has no retention policy. -/
theorem TTLs_without_own_policy (br : BuildRun) (hown : br.Spec.Retention = none) :
    (∀ bs r, br.Status.BuildSpec = some bs → bs.Retention = some r →
      Reconcile.TTLs br = (r.TTLAfterFailed, r.TTLAfterSucceeded)) ∧
    ((br.Status.BuildSpec = none ∨ ∃ bs, br.Status.BuildSpec = some bs ∧ bs.Retention = none) →
      Reconcile.TTLs br = (none, none)) := by
  constructor
  · intro bs r hbs hr
    simp [Reconcile.TTLs, hown, hbs, hr]
  · intro hnone
    rcases hnone with hbs | ⟨bs, hbs, hr⟩
    · simp [Reconcile.TTLs, hown, hbs]
    · simp [Reconcile.TTLs, hown, hbs, hr]

/-- C14 on the samples: `default/run-5` inherits two hours and one hour; `default/run-3`, which
has no `Status.BuildSpec`, gets no TTL. -/
theorem TTLs_without_own_policy_witness :
    Reconcile.TTLs Sample.snapshotOnlyRun = (some (2 * Sample.hour), some Sample.hour) ∧
    Reconcile.TTLs Sample.runningRun = (none, none) :=
  ⟨(TTLs_without_own_policy Sample.snapshotOnlyRun rfl).1
      ⟨some ⟨none, none, some (2 * Sample.hour), some Sample.hour⟩⟩
      ⟨none, none, some (2 * Sample.hour), some Sample.hour⟩ rfl rfl,
    (TTLs_without_own_policy Sample.runningRun rfl).2 (Or.inl rfl)⟩

/-- C15: when the BuildRun is loaded and its `Succeeded` condition is `Unknown`, `Reconcile`
returns the zero `Result` and no error and leaves the client as it was, whatever the TTLs, the
completion time and the clock are. -/
theorem Reconcile_unknown_is_done (clock : Clock) (request : Request) (c : Client)
    (br : BuildRun) (condition : Condition)
    (hget : c.Get request.NamespacedName = .ok br)
    (hcond : br.Status.GetCondition .Succeeded = some condition)
    (hunknown : condition.Status = .Unknown) :
    Reconcile clock request c = (.returned ({}, none), c) ∧
    (Reconcile clock request c).2.deleteCalls = c.deleteCalls := by
  have hrun := Reconcile_of_loaded clock request c br condition hget hcond
  rw [hunknown] at hrun
  exact ⟨hrun, by rw [hrun]⟩

/-- C15 on the sample: the running BuildRun `default/run-3` is left alone. -/
theorem Reconcile_unknown_is_done_witness :
    Reconcile (Clock.fixed ⟨Sample.hour⟩) (Sample.requestFor "run-3") Sample.fullClient =
      (.returned ({}, none), Sample.fullClient) ∧
    (Reconcile (Clock.fixed ⟨Sample.hour⟩) (Sample.requestFor "run-3")
      Sample.fullClient).2.deleteCalls = Sample.fullClient.deleteCalls :=
  Reconcile_unknown_is_done (Clock.fixed ⟨Sample.hour⟩) (Sample.requestFor "run-3")
    Sample.fullClient Sample.runningRun ⟨.Succeeded, .Unknown⟩ (by rfl) (by decide) rfl

end buildrunttlcleanup

/-! ## Further properties of the predicates -/

/-- Partial events that are dropped: an event in which the `Succeeded` condition is
missing from the old or from the new BuildRun is dropped by the update predicate of the TTL
cleanup controller, and by the one of the build limit cleanup controller when the new BuildRun
carries a reference to its Build; the latter also drops an event whose reference has an empty
name. -/
lemma predBuildRun_UpdateFunc_of_partial_event (e : UpdateEvent BuildRun) :
    ((e.ObjectOld.Status.GetCondition .Succeeded = none ∨
        e.ObjectNew.Status.GetCondition .Succeeded = none) →
      buildrunttlcleanup.predBuildRun.UpdateFunc e = false ∧
      ∀ buildRef, e.ObjectNew.Spec.BuildRef = some buildRef →
        buildlimitcleanup.predBuildRun.UpdateFunc e = .returned false) ∧
    (∀ buildRef, e.ObjectNew.Spec.BuildRef = some buildRef → buildRef.Name = "" →
      buildlimitcleanup.predBuildRun.UpdateFunc e = .returned false) := by
  constructor
  · intro hmissing
    constructor
    · unfold buildrunttlcleanup.predBuildRun.UpdateFunc
      rcases hmissing with h | h
      · simp [h]
      · cases ho : e.ObjectOld.Status.GetCondition .Succeeded <;> simp [h, ho]
    · intro buildRef href
      unfold buildlimitcleanup.predBuildRun.UpdateFunc
      rcases hmissing with h | h
      · by_cases hname : buildRef.Name = "" <;> simp [href, h, hname]
      · cases ho : e.ObjectOld.Status.GetCondition .Succeeded <;>
          by_cases hname : buildRef.Name = "" <;> simp [href, h, ho, hname]
  · intro buildRef href hname
    unfold buildlimitcleanup.predBuildRun.UpdateFunc
    simp [href, hname]

/-- C13, at the failing input: the update event in which `default/run-3` goes from running to
succeeded and the new BuildRun has no reference to a Build. The BuildRun update predicate of
the build limit cleanup controller reads `n.Spec.BuildRef.Name` through the missing reference:
it fails instead of returning `false`. -/
theorem predBuildRun_UpdateFunc_crashes_without_reference :
    Sample.standaloneRun.Spec.BuildRef = none ∧
    buildlimitcleanup.predBuildRun.UpdateFunc ⟨Sample.runningRun, Sample.standaloneRun⟩ =
      .nilDereference ∧
    buildlimitcleanup.predBuildRun.UpdateFunc ⟨Sample.runningRun, Sample.standaloneRun⟩ ≠
      .returned false := by
  refine ⟨by decide, by decide, by decide⟩

namespace buildlimitcleanup

/-- C16: the Build create predicate admits an event exactly when the Build has a retention
policy in which `failedLimit` or `succeededLimit` is set. -/
theorem pred_CreateFunc_admits_iff (e : CreateEvent Build) :
    pred.CreateFunc e = true ↔
      ∃ r, e.Object.Spec.Retention = some r ∧
        (r.FailedLimit ≠ none ∨ r.SucceededLimit ≠ none) := by
  obtain ⟨⟨ns, nm, ⟨ret⟩⟩⟩ := e
  rcases ret with _ | ⟨fl, sl, tf, ts⟩
  · simp [pred.CreateFunc]
  · cases fl <;> cases sl <;> simp [pred.CreateFunc]

/-- C17: for every BuildRun update event that the BuildRun update predicate of the build limit
cleanup controller admits, the new BuildRun carries a reference to its Build and the map
function turns the new BuildRun into exactly one request; its name is the name of the Build
reference, which is not empty, and its namespace is the namespace of the BuildRun. -/
theorem mapFunc_of_admitted_update (e : UpdateEvent BuildRun)
    (hpass : predBuildRun.UpdateFunc e = .returned true) :
    ∃ buildRef, e.ObjectNew.Spec.BuildRef = some buildRef ∧
      add.mapFunc e.ObjectNew =
        .returned [⟨⟨e.ObjectNew.Namespace, buildRef.Name⟩⟩] ∧
      buildRef.Name ≠ "" := by
  cases href : e.ObjectNew.Spec.BuildRef with
  | none =>
    unfold predBuildRun.UpdateFunc at hpass
    simp [href] at hpass
  | some buildRef =>
    refine ⟨buildRef, rfl, ?_, ?_⟩
    · unfold add.mapFunc
      simp [href]
    · intro hname
      unfold predBuildRun.UpdateFunc at hpass
      simp [href, hname] at hpass

/-- C17 on the sample: the completion of `default/run-3` is admitted and is turned into the one
request `default/app`. -/
theorem mapFunc_of_admitted_update_witness :
    predBuildRun.UpdateFunc ⟨Sample.runningRun, Sample.finishedRun⟩ = .returned true ∧
    ∃ buildRef, Sample.finishedRun.Spec.BuildRef = some buildRef ∧
      add.mapFunc Sample.finishedRun =
        .returned [⟨⟨Sample.finishedRun.Namespace, buildRef.Name⟩⟩] ∧
      buildRef.Name ≠ "" :=
  ⟨by decide, mapFunc_of_admitted_update ⟨Sample.runningRun, Sample.finishedRun⟩ (by decide)⟩

end buildlimitcleanup

namespace buildrunttlcleanup

/-- The test `hasTTL` holds exactly when the resolution of `Reconcile` yields a TTL. -/
lemma predBuildRun.hasTTL_iff_TTLs (o : BuildRun) :
    predBuildRun.hasTTL o = true ↔
      ((Reconcile.TTLs o).1 ≠ none ∨ (Reconcile.TTLs o).2 ≠ none) := by
  obtain ⟨ns, nm, ⟨ref, ret⟩, ⟨conds, ct, bspec⟩⟩ := o
  rcases ret with _ | ⟨f, s⟩ <;> rcases bspec with _ | ⟨_ | ⟨fl, sl, f2, s2⟩⟩ <;>
    simp [predBuildRun.hasTTL, Reconcile.TTLs] <;>
    (try cases f) <;> (try cases s) <;> (try cases f2) <;> (try cases s2) <;> simp

/-- C18: for every BuildRun update event whose `Succeeded` condition is `Unknown` in the old
BuildRun and `True` or `False` in the new one, the update predicate of the TTL cleanup
controller admits the event exactly when the TTL resolution of `Reconcile`, applied to the new
BuildRun, yields a TTL for at least one outcome. -/
theorem UpdateFunc_agrees_with_TTLs (e : UpdateEvent BuildRun)
    (oldCondition newCondition : Condition)
    (hold : e.ObjectOld.Status.GetCondition .Succeeded = some oldCondition)
    (hnew : e.ObjectNew.Status.GetCondition .Succeeded = some newCondition)
    (hunknown : oldCondition.Status = .Unknown)
    (hterm : newCondition.Status = .True ∨ newCondition.Status = .False) :
    predBuildRun.UpdateFunc e = true ↔
      ((Reconcile.TTLs e.ObjectNew).1 ≠ none ∨ (Reconcile.TTLs e.ObjectNew).2 ≠ none) := by
  rw [← predBuildRun.hasTTL_iff_TTLs]
  unfold predBuildRun.UpdateFunc
  rcases hterm with h | h <;> simp [hold, hnew, hunknown, h]

/-- C18 on the samples: the completion of `default/run-3` without any TTL is dropped and no TTL
is resolved for it; the same completion with the policy of `default/run-1` is admitted and a TTL
is resolved. -/
theorem UpdateFunc_agrees_with_TTLs_witness :
    (predBuildRun.UpdateFunc ⟨Sample.runningRun, Sample.finishedRun⟩ = true ↔
      ((Reconcile.TTLs Sample.finishedRun).1 ≠ none ∨
        (Reconcile.TTLs Sample.finishedRun).2 ≠ none)) ∧
    (predBuildRun.UpdateFunc ⟨Sample.runningRun, Sample.succeededRun⟩ = true ↔
      ((Reconcile.TTLs Sample.succeededRun).1 ≠ none ∨
        (Reconcile.TTLs Sample.succeededRun).2 ≠ none)) ∧
    predBuildRun.UpdateFunc ⟨Sample.runningRun, Sample.finishedRun⟩ = false ∧
    predBuildRun.UpdateFunc ⟨Sample.runningRun, Sample.succeededRun⟩ = true :=
  ⟨UpdateFunc_agrees_with_TTLs ⟨Sample.runningRun, Sample.finishedRun⟩
      ⟨.Succeeded, .Unknown⟩ ⟨.Succeeded, .True⟩ (by decide) (by decide) rfl (Or.inl rfl),
    UpdateFunc_agrees_with_TTLs ⟨Sample.runningRun, Sample.succeededRun⟩
      ⟨.Succeeded, .Unknown⟩ ⟨.Succeeded, .True⟩ (by decide) (by decide) rfl (Or.inl rfl),
    by decide, by decide⟩

/-- C19, at the failing input: `default/run-6` loads and has no `Succeeded` condition (so no
completion time is asked of it); `GetCondition` hands out `nil`, and `Reconcile` dereferences
it in `switch condition.Status` instead of finishing. -/
theorem Reconcile_crashes_without_condition :
    Sample.fullClient.Get (Sample.requestFor "run-6").NamespacedName = .ok Sample.bareRun ∧
    Sample.bareRun.Status.GetCondition .Succeeded = none ∧
    Reconcile (Clock.fixed ⟨Sample.hour⟩) (Sample.requestFor "run-6") Sample.fullClient =
      (.nilDereference, Sample.fullClient) := by
  refine ⟨by rfl, by decide, by decide⟩

end buildrunttlcleanup

/-! ## Auxiliary facts about the store -/

/-- A successful `Get` comes from a store that does not fail on loads and holds the BuildRun
under the key that was asked for. -/
lemma Client.Get_ok (c : Client) (key : NamespacedName) (br : BuildRun)
    (hget : c.Get key = .ok br) :
    c.getFailure = none ∧
    c.objects.find? (fun o => decide (o.key = key)) = some br ∧ br ∈ c.objects ∧ br.key = key := by
  unfold Client.Get at hget
  cases hf : c.getFailure with
  | some err => simp [hf] at hget
  | none =>
    simp only [hf] at hget
    cases hfind : c.objects.find? (fun o => decide (o.key = key)) with
    | none => simp [hfind] at hget
    | some found =>
      simp only [hfind, Except.ok.injEq] at hget
      subst hget
      refine ⟨rfl, rfl, List.mem_of_find?_eq_some hfind, ?_⟩
      have h := List.find?_some hfind
      simpa using h

/-- A `Get` on a store that does not fail on loads and holds no BuildRun under the key reports
not-found. -/
lemma Client.Get_of_absent (c : Client) (key : NamespacedName)
    (hf : c.getFailure = none) (habsent : ∀ o ∈ c.objects, o.key ≠ key) :
    c.Get key = .error .notFound := by
  unfold Client.Get
  have hfind : c.objects.find? (fun o => decide (o.key = key)) = none := by
    rw [List.find?_eq_none]
    intro o ho
    simpa using habsent o ho
  simp [hf, hfind]

/-- A `Delete` on a failing store answers the failure and changes the record of requests
only. -/
lemma Client.Delete_of_failure (c : Client) (obj : BuildRun) (err : APIError)
    (hf : c.deleteFailure = some err) :
    c.Delete obj = (some err, { c with deleteCalls := c.deleteCalls ++ [obj] }) := by
  unfold Client.Delete
  simp [hf]

/-- A `Delete` of a stored BuildRun on a store that does not fail removes every BuildRun of
that identity. -/
lemma Client.Delete_of_stored (c : Client) (obj : BuildRun)
    (hf : c.deleteFailure = none) (hmem : obj ∈ c.objects) :
    c.Delete obj =
      (none, { c with deleteCalls := c.deleteCalls ++ [obj],
                      objects := c.objects.filter (fun o => !decide (o.key = obj.key)) }) := by
  unfold Client.Delete
  have hany : c.objects.any (fun o => decide (o.key = obj.key)) = true := by
    rw [List.any_eq_true]
    exact ⟨obj, hmem, by simp⟩
  simp [hf, hany]

/-- Whatever `Delete` answers, the store afterwards holds what it held, or what it held minus
the BuildRuns of the identity that was deleted. -/
lemma Client.Delete_objects (c : Client) (obj : BuildRun) :
    (c.Delete obj).2.objects = c.objects ∨
    (c.Delete obj).2.objects = c.objects.filter (fun o => !decide (o.key = obj.key)) := by
  unfold Client.Delete
  cases c.deleteFailure with
  | some err => left; rfl
  | none =>
    by_cases hany : c.objects.any (fun o => decide (o.key = obj.key)) = true
    · right; simp [hany]
    · left; simp [hany]

namespace buildrunttlcleanup

/-- The run of `Reconcile` that ends on a failed load. -/
lemma Reconcile_of_failed_load (clock : Clock) (request : Request) (c : Client) (err : APIError)
    (hget : c.Get request.NamespacedName = .error err) :
    Reconcile clock request c =
      (if IsNotFound err then (.returned ({}, none), c) else (.returned ({}, some err), c)) := by
  have hget2 : c.Get ⟨request.NamespacedName.Namespace, request.NamespacedName.Name⟩ =
      .error err := hget
  unfold Reconcile
  rw [hget2]

/-- The run of `Reconcile` on a loaded BuildRun with a terminal condition, a TTL for that
outcome and a deadline before the clock reading of the expiry test. -/
lemma Reconcile_expired (clock : Clock) (request : Request) (c : Client)
    (br : BuildRun) (condition : Condition) (ttl : Duration) (completionTime : Time)
    (hget : c.Get request.NamespacedName = .ok br)
    (hcond : br.Status.GetCondition .Succeeded = some condition)
    (hterm : (condition.Status = .True ∧ (Reconcile.TTLs br).2 = some ttl) ∨
      (condition.Status = .False ∧ (Reconcile.TTLs br).1 = some ttl))
    (hct : br.Status.CompletionTime = some completionTime)
    (hnow : (completionTime.Add ttl).unixNano < clock.atBefore.unixNano) :
    Reconcile clock request c =
      (.returned ({}, (c.Delete br).1.filter (fun err => !IsNotFound err)), (c.Delete br).2) := by
  have hrun := Reconcile_of_loaded clock request c br condition hget hcond
  have httl := reconcileTTL_expired clock ttl br c completionTime hct hnow
  rcases hterm with ⟨hs, ht⟩ | ⟨hs, ht⟩
  all_goals
    rw [hs] at hrun
    simp only [ht, httl] at hrun
    rw [hrun]
    cases hd : (c.Delete br).1 with
    | none => simp [Reconcile.afterTTL, Option.filter]
    | some err => cases err <;> simp [Reconcile.afterTTL, Option.filter, IsNotFound]

/-- The two kinds of runs of `reconcileTTL` followed by the tail of `Reconcile`: the client is
left as it was, or the TTL is present, the completion time is set, the deadline lies before
the clock reading of the expiry test and the client is the one left by the delete. -/
lemma afterTTL_state_cases (clock : Clock) (ttl : Option Duration) (br : BuildRun)
    (c : Client) :
    (Reconcile.afterTTL (reconcileTTL clock ttl br c)).2 = c ∨
    ∃ d completionTime, ttl = some d ∧ br.Status.CompletionTime = some completionTime ∧
      (completionTime.Add d).unixNano < clock.atBefore.unixNano := by
  cases ttl with
  | none => left; simp [reconcileTTL, Reconcile.afterTTL]
  | some d =>
    cases hct : br.Status.CompletionTime with
    | none => left; simp [reconcileTTL, Reconcile.afterTTL, hct]
    | some completionTime =>
      by_cases hnow : (completionTime.Add d).unixNano < clock.atBefore.unixNano
      · right
        exact ⟨d, completionTime, rfl, rfl, hnow⟩
      · left
        rw [reconcileTTL_pending clock d br c completionTime hct (not_lt.mp hnow)]
        simp [Reconcile.afterTTL]

/-- The two kinds of runs of `Reconcile`: the client is left as it was, or the BuildRun is
loaded, its condition is terminal, the TTL of that outcome is present, the deadline lies before
the clock reading of the expiry test, and the delete is issued. -/
lemma Reconcile_state_cases (clock : Clock) (request : Request) (c : Client) :
    (Reconcile clock request c).2 = c ∨
    ∃ br condition ttl completionTime,
      c.Get request.NamespacedName = .ok br ∧
      br.Status.GetCondition .Succeeded = some condition ∧
      ((condition.Status = .True ∧ (Reconcile.TTLs br).2 = some ttl) ∨
        (condition.Status = .False ∧ (Reconcile.TTLs br).1 = some ttl)) ∧
      br.Status.CompletionTime = some completionTime ∧
      (completionTime.Add ttl).unixNano < clock.atBefore.unixNano ∧
      Reconcile clock request c =
        (.returned ({}, (c.Delete br).1.filter (fun err => !IsNotFound err)),
          (c.Delete br).2) := by
  cases hget : c.Get request.NamespacedName with
  | error err =>
    left
    rw [Reconcile_of_failed_load clock request c err hget]
    split <;> rfl
  | ok br =>
    cases hcond : br.Status.GetCondition .Succeeded with
    | none =>
      left
      have hget2 : c.Get ⟨request.NamespacedName.Namespace, request.NamespacedName.Name⟩ =
          .ok br := hget
      unfold Reconcile
      rw [hget2]
      simp only [hcond]
    | some condition =>
      have hrun := Reconcile_of_loaded clock request c br condition hget hcond
      cases hs : condition.Status with
      | True =>
        rw [hs] at hrun
        rcases afterTTL_state_cases clock (Reconcile.TTLs br).2 br c with h | ⟨d, ct, hd, hct, hnow⟩
        · left; rw [hrun]; exact h
        · right
          exact ⟨br, condition, d, ct, rfl, hcond, Or.inl ⟨hs, hd⟩, hct, hnow,
            Reconcile_expired clock request c br condition d ct hget hcond (Or.inl ⟨hs, hd⟩)
              hct hnow⟩
      | False =>
        rw [hs] at hrun
        rcases afterTTL_state_cases clock (Reconcile.TTLs br).1 br c with h | ⟨d, ct, hd, hct, hnow⟩
        · left; rw [hrun]; exact h
        · right
          exact ⟨br, condition, d, ct, rfl, hcond, Or.inr ⟨hs, hd⟩, hct, hnow,
            Reconcile_expired clock request c br condition d ct hget hcond (Or.inr ⟨hs, hd⟩)
              hct hnow⟩
      | Unknown => left; rw [hs] at hrun; rw [hrun]
      | other v => left; rw [hs] at hrun; rw [hrun]

end buildrunttlcleanup

/-! ## Effect of the TTL reconciler on the store -/

namespace buildrunttlcleanup

/-- C20: after `Reconcile`, the BuildRuns of every identity other than the one of the request
are those the store held before; the BuildRuns of the identity of the request are those held
before, or none is left; and when a delete request is issued, it is for the loaded BuildRun,
whose `Succeeded` condition is `True` or `False`, whose TTL for that outcome is present, and
whose `completionTime + ttl` lies strictly before the clock reading of the expiry test. -/
theorem Reconcile_frame (clock : Clock) (request : Request) (c : Client) :
    (Reconcile clock request c).2.objects.filter
        (fun o => !decide (o.key = request.NamespacedName)) =
      c.objects.filter (fun o => !decide (o.key = request.NamespacedName)) ∧
    ((Reconcile clock request c).2.objects.filter
        (fun o => decide (o.key = request.NamespacedName)) =
        c.objects.filter (fun o => decide (o.key = request.NamespacedName)) ∨
      (Reconcile clock request c).2.objects.filter
        (fun o => decide (o.key = request.NamespacedName)) = []) ∧
    ((Reconcile clock request c).2.deleteCalls ≠ c.deleteCalls →
      ∃ br condition ttl completionTime,
        c.Get request.NamespacedName = .ok br ∧
        (Reconcile clock request c).2.deleteCalls = c.deleteCalls ++ [br] ∧
        br.Status.GetCondition .Succeeded = some condition ∧
        ((condition.Status = .True ∧ (Reconcile.TTLs br).2 = some ttl) ∨
          (condition.Status = .False ∧ (Reconcile.TTLs br).1 = some ttl)) ∧
        br.Status.CompletionTime = some completionTime ∧
        (completionTime.Add ttl).unixNano < clock.atBefore.unixNano) := by
  rcases Reconcile_state_cases clock request c with
    h | ⟨br, condition, ttl, ct, hget, hcond, hterm, hct, hnow, hrun⟩
  · rw [h]
    exact ⟨rfl, Or.inl rfl, fun hne => absurd rfl hne⟩
  · obtain ⟨_, _, _, hkey⟩ := Client.Get_ok c _ br hget
    rw [hrun]
    refine ⟨?_, ?_, ?_⟩
    · rcases Client.Delete_objects c br with hobj | hobj
      · simp only [hobj]
      · simp only [hobj, hkey, List.filter_filter, Bool.and_self]
    · rcases Client.Delete_objects c br with hobj | hobj
      · left
        simp only [hobj]
      · right
        simp only [hobj, hkey, List.filter_filter]
        rw [List.filter_eq_nil_iff]
        intro o _
        simp
    · intro _
      exact ⟨br, condition, ttl, ct, hget, Client.Delete_deleteCalls c br, hcond, hterm, hct,
        hnow⟩

/-- C12: with the clock fixed at `now`, a second run of `Reconcile` for the same request, on the
client left by the first run, leaves the BuildRuns of the store as the first run left them;
when the first run returned without error, so does the second; and after a first run whose
delete succeeded, the second run returns the zero `Result` and no error. -/
theorem Reconcile_twice (now : Time) (request : Request) (c : Client) :
    (Reconcile (Clock.fixed now) request (Reconcile (Clock.fixed now) request c).2).2.objects =
      (Reconcile (Clock.fixed now) request c).2.objects ∧
    (∀ result, (Reconcile (Clock.fixed now) request c).1 = .returned (result, none) →
      ∃ result2,
        (Reconcile (Clock.fixed now) request (Reconcile (Clock.fixed now) request c).2).1 =
          .returned (result2, none)) ∧
    (∀ br, c.Get request.NamespacedName = .ok br →
      (Reconcile (Clock.fixed now) request c).2.deleteCalls = c.deleteCalls ++ [br] →
      (c.Delete br).1 = none →
      (Reconcile (Clock.fixed now) request (Reconcile (Clock.fixed now) request c).2).1 =
        .returned ({}, none)) := by
  rcases Reconcile_state_cases (Clock.fixed now) request c with
    h | ⟨br, condition, ttl, ct, hget, hcond, hterm, hct, hnow, hrun⟩
  · have h2 : Reconcile (Clock.fixed now) request (Reconcile (Clock.fixed now) request c).2 =
        Reconcile (Clock.fixed now) request c := by rw [h]
    rw [h2]
    refine ⟨by rw [h], fun result hr => ⟨result, hr⟩, ?_⟩
    intro br _ hcalls _
    rw [h] at hcalls
    simp at hcalls
  · obtain ⟨hgf, hfind, hmem, hkey⟩ := Client.Get_ok c _ br hget
    cases hdf : c.deleteFailure with
    | some e =>
      have hdel := Client.Delete_of_failure c br e hdf
      have hget1 : Client.Get { c with deleteCalls := c.deleteCalls ++ [br] }
          request.NamespacedName = .ok br := hget
      have hdf1 : Client.deleteFailure { c with deleteCalls := c.deleteCalls ++ [br] } =
          some e := hdf
      have hrun2 := Reconcile_expired (Clock.fixed now) request
        { c with deleteCalls := c.deleteCalls ++ [br] } br condition ttl ct hget1 hcond hterm
        hct hnow
      rw [Client.Delete_of_failure _ br e hdf1] at hrun2
      rw [hdel] at hrun
      rw [hrun]
      simp only
      rw [hrun2]
      refine ⟨rfl, fun result hr => ⟨{}, ?_⟩, ?_⟩
      · simp only [Run.returned.injEq, Prod.mk.injEq] at hr
        simp only [hr.2]
      · intro br2 hget2 _ hnone
        rw [hget] at hget2
        simp only [Except.ok.injEq] at hget2
        subst hget2
        rw [hdel] at hnone
        simp at hnone
    | none =>
      have hdel := Client.Delete_of_stored c br hdf hmem
      have habsent : Client.Get
          { c with deleteCalls := c.deleteCalls ++ [br],
                   objects := c.objects.filter (fun o => !decide (o.key = br.key)) }
          request.NamespacedName = .error .notFound := by
        refine Client.Get_of_absent
          { c with deleteCalls := c.deleteCalls ++ [br],
                   objects := c.objects.filter (fun o => !decide (o.key = br.key)) }
          request.NamespacedName hgf ?_
        intro o ho
        simp only [List.mem_filter] at ho
        rw [← hkey]
        simpa using ho.2
      have hrun2 := Reconcile_of_failed_load (Clock.fixed now) request _ _ habsent
      simp only [IsNotFound, if_true] at hrun2
      rw [hdel] at hrun
      rw [hrun]
      simp only
      rw [hrun2]
      exact ⟨rfl, fun result _ => ⟨{}, rfl⟩, fun _ _ _ _ => rfl⟩

end buildrunttlcleanup
